import Mathlib

/-!
Shallow embedding of the `cast run` transaction-replay engine
(`src/crates/cast/bin/cmd/run.rs`, `RunArgs::run`), together with proofs of
the specification claims about it.

External collaborators (the RPC provider, the EVM executor backend and the
console-log decoder) are modelled as function fields of a `World` structure,
following the collaborator contracts the code consumes.  Machine integers are
modelled as `Nat`; the one place where 64-bit wrap-around matters (the parent
block number computation `tx_block_number - 1`) is modelled explicitly
modulo `2 ^ 64`.
-/

namespace CastRun

/-- A transaction record as fetched from the provider.  `sender` models the
source field `from` and `to_addr` the source field `to` (both reserved words
in Lean); an absent `to_addr` means the transaction is a contract
creation. -/
structure Tx where
  sender : Nat
  to_addr : Option Nat
  hash : Nat
  transaction_type : Option Nat
  block_number : Option Nat
deriving DecidableEq

/-- Block-header fields read by the environment builder. -/
structure BlockHeader where
  timestamp : Nat
  miner : Nat
  difficulty : Nat
  mix_hash : Option Nat
  base_fee_per_gas : Option Nat
  gas_limit : Nat
  excess_blob_gas : Option Nat
deriving DecidableEq

/-- The transactions carried by a fetched block: either full records or
hashes only (the replay loop requires full records and errors otherwise). -/
inductive BlockTransactions where
  | full (txs : List Tx)
  | hashes (hs : List Nat)
deriving DecidableEq

/-- A fetched block: header plus transaction list. -/
structure Block where
  header : BlockHeader
  transactions : BlockTransactions
deriving DecidableEq

/-- Block-level execution environment (`env.block` in the source). -/
structure BlockEnv where
  number : Nat
  timestamp : Nat
  coinbase : Nat
  difficulty : Nat
  prevrandao : Option Nat
  basefee : Nat
  gas_limit : Nat
deriving DecidableEq

/-- Execution environment: the block context plus the currently configured
transaction (`configure_tx_env` fills in the latter). -/
structure Env where
  block : BlockEnv
  tx : Option Tx
deriving DecidableEq

/-- EVM protocol versions; only `cancun` is ever inferred by the code, other
versions are abstract. -/
inductive EvmVersion where
  | cancun
  | other (v : Nat)
deriving DecidableEq

/-- Result of a committed execution (`RawCallResult` / `DeployResult`):
whether the execution reverted, and the raw logs it produced. -/
structure ExecResult where
  reverted : Bool
  logs : List Nat
deriving DecidableEq

/-- Errors returned by the executor's deploy path (`EvmError`): an
execution-level failure (carrying the failed execution's logs), or any other
fatal backend error. -/
inductive EvmError (ε : Type) where
  | execution (res : ExecResult)
  | fatal (err : ε)
deriving DecidableEq

/-- A trace result surfaced to the caller (`TraceResult`): built from a
successful call, a successful deployment, or a failed execution. -/
inductive TraceResult where
  | fromCall (res : ExecResult)
  | fromDeploy (res : ExecResult)
  | fromExecutionError (res : ExecResult)
deriving DecidableEq

/-- The caller-visible outcome of the run: the trace result of the target
transaction plus its decoded console logs. -/
structure RunOutcome where
  trace : TraceResult
  console_logs : List Nat
deriving DecidableEq

/-- The run-level errors of `RunArgs::run`, keeping the data each source
error message carries (the failing transaction hash and, for prior-replay
failures, the block number of the environment). -/
inductive RunError (ε : Type) where
  | txNotFound (txHash : Nat)
  | systemTransaction (txHash : Nat)
  | pendingTx (txHash : Nat)
  | couldNotGetBlockTxs
  | failedExecuteTx (txHash : Nat) (blockNumber : Nat) (cause : ε)
  | failedDeployTx (txHash : Nat) (blockNumber : Nat) (cause : ε)
  | targetCallError (cause : ε)
  | targetDeployError (cause : ε)
deriving DecidableEq

/-- The external collaborators of the replay engine, at the interface the
source consumes: the provider, the fork-material builder, the executor
backend (state type `σ`, fatal-error type `ε`) and the console-log decoder.
`commit_tx_with_env` and `deploy_with_env` thread the backend state
explicitly (the source mutates the executor through `&mut self`). -/
structure World (σ ε : Type) where
  get_transaction_by_hash : Nat → Option Tx
  get_block : Nat → Option Block
  get_fork_material : Nat → BlockEnv
  init_executor : BlockEnv → Nat → Option EvmVersion → σ
  commit_tx_with_env : σ → Env → σ × Except ε ExecResult
  deploy_with_env : σ → Env → σ × Except (EvmError ε) ExecResult
  is_known_system_sender : Nat → Bool
  decode_console_logs : List Nat → List Nat

/-- The reserved system-transaction type tag (`SYSTEM_TRANSACTION_TYPE` from
`foundry_common`, the OP deposit transaction type `0x7E`).  Only its identity
matters for the replay logic, never its numeric value. -/
def SYSTEM_TRANSACTION_TYPE : Nat := 126

/-- The system-transaction check used both by the target resolver (line 123)
and by the replay loop (line 205): known system sender, or transaction-type
tag equal to the reserved system type. -/
def isSystemTx {σ ε : Type} (w : World σ ε) (t : Tx) : Bool :=
  w.is_known_system_sender t.sender ||
    t.transaction_type == some SYSTEM_TRANSACTION_TYPE

/-- `configure_tx_env` (from `foundry_evm::utils`): populate the environment
with the given transaction's fields, leaving the block context unchanged. -/
def configure_tx_env (env : Env) (t : Tx) : Env := { env with tx := some t }

/-- The 64-bit modulus. -/
def U64_MOD : Nat := 2 ^ 64

/-- `tx_block_number - 1` on `u64` (line 141), modelled as wrapping
subtraction modulo `2 ^ 64`. -/
def fork_block_number (tx_block_number : Nat) : Nat :=
  (tx_block_number + (U64_MOD - 1)) % U64_MOD

/-- Target resolution (lines 116-135): fetch the transaction, reject system
transactions, require an attached block number. -/
def resolveTarget {σ ε : Type} (w : World σ ε) (txHash : Nat) :
    Except (RunError ε) (Tx × Nat) :=
  match w.get_transaction_by_hash txHash with
  | none => Except.error (RunError.txNotFound txHash)
  | some tx =>
    if isSystemTx w tx then Except.error (RunError.systemTransaction tx.hash)
    else
      match tx.block_number with
      | none => Except.error (RunError.pendingTx txHash)
      | some n => Except.ok (tx, n)

/-- Environment construction (lines 147-165): set the block number to the
target's block number, then, when block data is available, overwrite the
header-derived fields (timestamp, coinbase, difficulty, prevrandao, base
fee, gas limit) from the fetched header. -/
def buildBlockEnv (base : BlockEnv) (tx_block_number : Nat)
    (block : Option Block) : BlockEnv :=
  let e := { base with number := tx_block_number }
  match block with
  | none => e
  | some b =>
    { e with
      timestamp := b.header.timestamp
      coinbase := b.header.miner
      difficulty := b.header.difficulty
      prevrandao := some (b.header.mix_hash.getD 0)
      basefee := b.header.base_fee_per_gas.getD 0
      gas_limit := b.header.gas_limit }

/-- EVM-version inference (lines 145, 157-164): keep the caller's explicit
choice; otherwise, when the fetched header exposes `excess_blob_gas`, assume
a Cancun block. -/
def inferEvmVersion (userVersion : Option EvmVersion) (block : Option Block) :
    Option EvmVersion :=
  match block with
  | none => userVersion
  | some b =>
    match userVersion with
    | some v => some v
    | none => if b.header.excess_blob_gas.isSome then some EvmVersion.cancun else none

/-- The block environment the run prepares for target block number `n`:
fork material fetched at the parent block, block number set to `n`, header
fields from the fetched block when present. -/
def preparedBlockEnv {σ ε : Type} (w : World σ ε) (n : Nat) : BlockEnv :=
  buildBlockEnv (w.get_fork_material (fork_block_number n)) n (w.get_block n)

/-- The execution environment before any transaction is configured. -/
def preparedEnv {σ ε : Type} (w : World σ ε) (n : Nat) : Env :=
  { block := preparedBlockEnv w n, tx := none }

/-- The initial executor state: built from the prepared environment, the
parent-block fork point, and the inferred EVM version (line 167). -/
def initialState {σ ε : Type} (w : World σ ε) (ver : Option EvmVersion)
    (n : Nat) : σ :=
  w.init_executor (preparedBlockEnv w n) (fork_block_number n)
    (inferEvmVersion ver (w.get_block n))

/-- One replay step of a prior (non-skipped) transaction (lines 216-242):
configure the environment with the transaction; a transaction with a
recipient is committed as a call, and any failure aborts with an error
carrying the hash and block number; a transaction without a recipient is
deployed, an execution-level failure is tolerated (the possibly-updated
backend state is kept), and any other failure aborts with an error carrying
the hash and block number. -/
def applyPriorTx {σ ε : Type} (w : World σ ε) (env : Env) (s : σ) (t : Tx) :
    Except (RunError ε) σ :=
  match t.to_addr with
  | some _ =>
    match w.commit_tx_with_env s (configure_tx_env env t) with
    | (s1, Except.ok _) => Except.ok s1
    | (_, Except.error e) =>
      Except.error (RunError.failedExecuteTx t.hash env.block.number e)
  | none =>
    match w.deploy_with_env s (configure_tx_env env t) with
    | (s1, Except.ok _) => Except.ok s1
    | (s1, Except.error (EvmError.execution _)) => Except.ok s1
    | (_, Except.error (EvmError.fatal e)) =>
      Except.error (RunError.failedDeployTx t.hash env.block.number e)

/-- The prior-transaction replay loop (lines 201-245): walk the block's
transactions in mined order; skip system transactions; stop (without
replaying it) at the transaction whose hash equals the target hash;
otherwise replay the transaction against the threaded backend state. -/
def replayPrior {σ ε : Type} (w : World σ ε) (txHash : Nat) (env : Env) :
    σ → List Tx → Except (RunError ε) σ
  | s, [] => Except.ok s
  | s, t :: rest =>
    if isSystemTx w t then replayPrior w txHash env s rest
    else if t.hash = txHash then Except.ok s
    else
      match applyPriorTx w env s t with
      | Except.ok s1 => replayPrior w txHash env s1 rest
      | Except.error e => Except.error e

/-- Sequential application of a list of prior transactions, with no skipping
and no stopping: the reference fold the replay loop is compared against. -/
def foldPrior {σ ε : Type} (w : World σ ε) (env : Env) :
    σ → List Tx → Except (RunError ε) σ
  | s, [] => Except.ok s
  | s, t :: rest =>
    match applyPriorTx w env s t with
    | Except.ok s1 => foldPrior w env s1 rest
    | Except.error e => Except.error e

/-- Modelled from the spec: `TraceResult::try_from(EvmError)` from
`foundry_cli::utils` (this repository, not under `src/`): per §4.4.6 of the
spec, "creation-path failures produce a structured error result rather than
aborting" for the target's own (execution-level) failure, while any other
error is returned unchanged and propagates. -/
def TraceResult.tryFromEvmError {ε : Type} :
    EvmError ε → Except ε TraceResult
  | EvmError.execution res => Except.ok (TraceResult.fromExecutionError res)
  | EvmError.fatal e => Except.error e

/-- Execution of the target transaction itself (lines 250-274): a call is
committed and its result (including a reverted one) becomes the trace
result, with a backend failure propagating; a creation is deployed, a
successful or execution-failed deployment becomes a structured trace result
(with the failed execution's decoded logs), and any other deploy error
propagates. -/
def executeTarget {σ ε : Type} (w : World σ ε) (env : Env) (s : σ) (tx : Tx) :
    Except (RunError ε) RunOutcome :=
  let env1 := configure_tx_env env tx
  match tx.to_addr with
  | some _ =>
    match w.commit_tx_with_env s env1 with
    | (_, Except.ok res) =>
      Except.ok ⟨TraceResult.fromCall res, w.decode_console_logs res.logs⟩
    | (_, Except.error e) => Except.error (RunError.targetCallError e)
  | none =>
    match w.deploy_with_env s env1 with
    | (_, Except.ok res) =>
      Except.ok ⟨TraceResult.fromDeploy res, w.decode_console_logs res.logs⟩
    | (_, Except.error err) =>
      let logs :=
        match err with
        | EvmError.execution res => w.decode_console_logs res.logs
        | EvmError.fatal _ => []
      match TraceResult.tryFromEvmError err with
      | Except.ok tr => Except.ok ⟨tr, logs⟩
      | Except.error e => Except.error (RunError.targetDeployError e)

/-- Everything before the target execution (lines 116-247): resolve the
target, fetch its block, fork at the parent block, build the environment and
initial executor state, and (unless `quick` is set, and only when block data
is available) replay the prior transactions. -/
def prepare {σ ε : Type} (w : World σ ε) (quick : Bool)
    (ver : Option EvmVersion) (txHash : Nat) :
    Except (RunError ε) (Tx × Env × σ) :=
  match resolveTarget w txHash with
  | Except.error e => Except.error e
  | Except.ok (tx, tx_block_number) =>
    let env := preparedEnv w tx_block_number
    let s0 := initialState w ver tx_block_number
    if quick then Except.ok (tx, env, s0)
    else
      match w.get_block tx_block_number with
      | none => Except.ok (tx, env, s0)
      | some b =>
        match b.transactions with
        | BlockTransactions.hashes _ => Except.error RunError.couldNotGetBlockTxs
        | BlockTransactions.full txs =>
          match replayPrior w txHash env s0 txs with
          | Except.ok s1 => Except.ok (tx, env, s1)
          | Except.error e => Except.error e

/-- The whole run (`RunArgs::run`, lines 116-287, with the configuration,
tweak-override and presentation phases out of scope): prepare, then execute
the target transaction. -/
def runTx {σ ε : Type} (w : World σ ε) (quick : Bool)
    (ver : Option EvmVersion) (txHash : Nat) :
    Except (RunError ε) RunOutcome :=
  match prepare w quick ver txHash with
  | Except.error e => Except.error e
  | Except.ok (tx, env, s) => executeTarget w env s tx

/-! Concrete fixtures used to evaluate the theorems below on closed inputs.
The backend state is a plain counter (`σ := Nat`) and fatal errors are
numeric codes (`ε := Nat`). -/

/-- A concrete block header. -/
def hd0 : BlockHeader :=
  { timestamp := 1000, miner := 77, difficulty := 5, mix_hash := some 8,
    base_fee_per_gas := some 6, gas_limit := 30000000, excess_blob_gas := none }

/-- A concrete fork-derived block environment. -/
def base0 : BlockEnv :=
  { number := 0, timestamp := 1, coinbase := 2, difficulty := 3,
    prevrandao := none, basefee := 4, gas_limit := 5 }

/-- The target transaction of the fixtures: a call mined in block 5. -/
def target0 : Tx :=
  { sender := 1, to_addr := some 2, hash := 10, transaction_type := none,
    block_number := some 5 }

/-- A target-style creation transaction mined in block 5. -/
def create0 : Tx :=
  { sender := 1, to_addr := none, hash := 11, transaction_type := none,
    block_number := some 5 }

/-- A transaction with no attached block number (still pending). -/
def pending0 : Tx :=
  { sender := 1, to_addr := some 2, hash := 13, transaction_type := none,
    block_number := none }

/-- A target transaction whose block has no fetched data. -/
def orphan0 : Tx :=
  { sender := 1, to_addr := some 2, hash := 14, transaction_type := none,
    block_number := some 7 }

/-- A system transaction (by type tag) posing as a target. -/
def sysTarget0 : Tx :=
  { sender := 1, to_addr := some 2, hash := 12,
    transaction_type := some SYSTEM_TRANSACTION_TYPE, block_number := some 5 }

/-- A prior call transaction in block 5. -/
def callPrior : Tx :=
  { sender := 4, to_addr := some 2, hash := 20, transaction_type := none,
    block_number := some 5 }

/-- A prior creation transaction in block 5. -/
def createPrior : Tx :=
  { sender := 4, to_addr := none, hash := 21, transaction_type := none,
    block_number := some 5 }

/-- A prior system transaction (by sender) in block 5. -/
def sysPrior : Tx :=
  { sender := 9, to_addr := some 2, hash := 22, transaction_type := none,
    block_number := some 5 }

/-- A successful execution result. -/
def okRes : ExecResult := { reverted := false, logs := [3] }

/-- A reverted execution result. -/
def revRes : ExecResult := { reverted := true, logs := [4] }

/-- The base fixture world: block 5 holds a system transaction, a prior
call, a prior creation and then the target; every execution succeeds and
bumps the state counter. -/
def w0 : World Nat Nat :=
  { get_transaction_by_hash := fun th =>
      if th = 10 then some target0
      else if th = 11 then some create0
      else if th = 14 then some orphan0
      else if th = 12 then some sysTarget0
      else if th = 13 then some pending0
      else none
    get_block := fun m =>
      if m = 5 then
        some { header := hd0,
               transactions :=
                 BlockTransactions.full [sysPrior, callPrior, createPrior, target0] }
      else none
    get_fork_material := fun _ => base0
    init_executor := fun _ _ _ => 0
    commit_tx_with_env := fun s _ => (s + 1, Except.ok okRes)
    deploy_with_env := fun s _ => (s + 1, Except.ok okRes)
    is_known_system_sender := fun a => a == 9
    decode_console_logs := fun l => l }

/-- Fixture: every call execution reverts (but commits fine). -/
def w1a : World Nat Nat :=
  { w0 with commit_tx_with_env := fun s _ => (s, Except.ok revRes) }

/-- Fixture: every deployment fails at execution level. -/
def w1b : World Nat Nat :=
  { w0 with deploy_with_env :=
      fun s _ => (s, Except.error (EvmError.execution revRes)) }

/-- Fixture: every call execution fails fatally with code 42. -/
def w3f : World Nat Nat :=
  { w0 with commit_tx_with_env := fun s _ => (s, Except.error 42) }

/-- Fixture: every deployment reverts at execution level (state advances). -/
def w4a : World Nat Nat :=
  { w0 with deploy_with_env :=
      fun s _ => (s + 1, Except.error (EvmError.execution revRes)) }

/-- Fixture: every deployment fails fatally with code 13. -/
def w4b : World Nat Nat :=
  { w0 with deploy_with_env :=
      fun s _ => (s, Except.error (EvmError.fatal 13)) }

/-- The world `w`, with the block stored at number `n` replaced by the same
block with its system transactions removed. -/
def filteredWorld {σ ε : Type} (w : World σ ε) (n : Nat) (hd : BlockHeader)
    (txs : List Tx) : World σ ε :=
  { w with get_block := fun m =>
      if m = n then
        some ⟨hd, BlockTransactions.full
          (txs.filter (fun x => !isSystemTx w x))⟩
      else w.get_block m }

/-! Helper lemmas. -/

/-- Successful target resolution, unpacked. -/
theorem resolveTarget_ok {σ ε : Type} (w : World σ ε) (txHash n : Nat) (tx : Tx)
    (htx : w.get_transaction_by_hash txHash = some tx)
    (hsys : isSystemTx w tx = false)
    (hbn : tx.block_number = some n) :
    resolveTarget w txHash = Except.ok (tx, n) := by
  simp [resolveTarget, htx, hsys, hbn]

/-- The prepared block environment always carries the target block number:
the header update never touches the `number` field. -/
theorem preparedBlockEnv_number {σ ε : Type} (w : World σ ε) (n : Nat) :
    (preparedBlockEnv w n).number = n := by
  unfold preparedBlockEnv buildBlockEnv
  cases w.get_block n <;> rfl

/-- The prepared execution environment carries the target block number. -/
theorem preparedEnv_block_number {σ ε : Type} (w : World σ ε) (n : Nat) :
    (preparedEnv w n).block.number = n :=
  preparedBlockEnv_number w n

/-- The boolean system-transaction check, as a proposition. -/
theorem isSystemTx_eq_true_iff {σ ε : Type} (w : World σ ε) (t : Tx) :
    isSystemTx w t = true ↔
      (w.is_known_system_sender t.sender = true ∨
        t.transaction_type = some SYSTEM_TRANSACTION_TYPE) := by
  simp [isSystemTx]

/-- Removing the system transactions from the input list does not change the
replay loop at all: they are skipped with no state change. -/
theorem replayPrior_filter_system {σ ε : Type} (w : World σ ε) (h : Nat)
    (env : Env) :
    ∀ (l : List Tx) (s : σ),
      replayPrior w h env s (l.filter (fun t => !isSystemTx w t)) =
        replayPrior w h env s l := by
  intro l
  induction l with
  | nil => intro s; rfl
  | cons t rest ih =>
    intro s
    rw [List.filter_cons]
    by_cases hs : isSystemTx w t
    · rw [replayPrior, if_pos hs]
      simp only [hs, Bool.not_true, Bool.false_eq_true, if_false]
      exact ih s
    · rw [replayPrior]
      rw [if_neg hs]
      simp only [hs, Bool.not_false, if_true]
      rw [replayPrior, if_neg hs]
      by_cases hh : t.hash = h
      · rw [if_pos hh, if_pos hh]
      · rw [if_neg hh, if_neg hh]
        cases happ : applyPriorTx w env s t with
        | ok s1 => exact ih s1
        | error e => rfl

/-- Running the loop on `pre ++ ys`, when no non-system transaction of `pre`
carries the target hash, first folds the non-system transactions of `pre`
over the backend in order and then continues with `ys` (or aborts with the
fold's error). -/
theorem replayPrior_front {σ ε : Type} (w : World σ ε) (h : Nat) (env : Env) :
    ∀ (pre : List Tx) (s : σ) (ys : List Tx),
      (∀ p ∈ pre, isSystemTx w p = true ∨ p.hash ≠ h) →
      replayPrior w h env s (pre ++ ys) =
        match foldPrior w env s (pre.filter (fun t => !isSystemTx w t)) with
        | Except.ok s1 => replayPrior w h env s1 ys
        | Except.error e => Except.error e := by
  intro pre
  induction pre with
  | nil => intro s ys _; rfl
  | cons t rest ih =>
    intro s ys hpre
    have ht := hpre t (List.mem_cons_self t rest)
    have hrest : ∀ p ∈ rest, isSystemTx w p = true ∨ p.hash ≠ h :=
      fun p hp => hpre p (List.mem_cons_of_mem t hp)
    rw [List.cons_append, List.filter_cons]
    by_cases hs : isSystemTx w t
    · rw [replayPrior, if_pos hs]
      simp only [hs, Bool.not_true, Bool.false_eq_true, if_false]
      exact ih s ys hrest
    · have hh : t.hash ≠ h := by
        rcases ht with ht | ht
        · exact absurd ht hs
        · exact ht
      rw [replayPrior, if_neg hs, if_neg hh]
      simp only [hs, Bool.not_false, if_true]
      rw [foldPrior]
      cases happ : applyPriorTx w env s t with
      | ok s1 => exact ih s1 ys hrest
      | error e => rfl

/-- The replay loop never consults the block getter, so overriding it leaves
the loop unchanged. -/
theorem replayPrior_get_block_congr {σ ε : Type} (w : World σ ε)
    (g : Nat → Option Block) (h : Nat) (env : Env) :
    ∀ (l : List Tx) (s : σ),
      replayPrior { w with get_block := g } h env s l =
        replayPrior w h env s l := by
  intro l
  induction l with
  | nil => intro s; rfl
  | cons t rest ih =>
    intro s
    rw [replayPrior, replayPrior]
    have hsys : isSystemTx { w with get_block := g } t = isSystemTx w t := rfl
    rw [hsys]
    by_cases hs : isSystemTx w t
    · rw [if_pos hs, if_pos hs]
      exact ih s
    · rw [if_neg hs, if_neg hs]
      by_cases hh : t.hash = h
      · rw [if_pos hh, if_pos hh]
      · rw [if_neg hh, if_neg hh]
        have happ : applyPriorTx { w with get_block := g } env s t =
            applyPriorTx w env s t := rfl
        rw [happ]
        cases applyPriorTx w env s t with
        | ok s1 => exact ih s1
        | error e => rfl

/-! The claims. -/

/-- C1: For every target transaction, the failure of the target
transaction's own execution (a reverted call, or an execution-level failed
creation) is returned to the caller as a structured result payload
(a trace result plus decoded logs) and is never treated as a run-level abort
of the replay run. -/
theorem target_failure_is_result {σ ε : Type} (w : World σ ε) (quick : Bool)
    (ver : Option EvmVersion) (txHash : Nat) (tx : Tx) (env : Env) (s : σ)
    (hprep : prepare w quick ver txHash = Except.ok (tx, env, s)) :
    (∀ a res, tx.to_addr = some a →
      (w.commit_tx_with_env s (configure_tx_env env tx)).2 = Except.ok res →
      res.reverted = true →
      runTx w quick ver txHash =
        Except.ok ⟨TraceResult.fromCall res, w.decode_console_logs res.logs⟩) ∧
    (∀ res, tx.to_addr = none →
      (w.deploy_with_env s (configure_tx_env env tx)).2 =
        Except.error (EvmError.execution res) →
      runTx w quick ver txHash =
        Except.ok ⟨TraceResult.fromExecutionError res,
          w.decode_console_logs res.logs⟩) := by
  constructor
  · intro a res hto hcommit _
    rcases hc : w.commit_tx_with_env s (configure_tx_env env tx) with ⟨s2, r⟩
    rw [hc] at hcommit
    simp only at hcommit
    subst hcommit
    simp [runTx, hprep, executeTarget, hto, hc]
  · intro res hto hdep
    rcases hc : w.deploy_with_env s (configure_tx_env env tx) with ⟨s2, r⟩
    rw [hc] at hdep
    simp only at hdep
    subst hdep
    simp [runTx, hprep, executeTarget, hto, hc, TraceResult.tryFromEvmError]

/-- C1 witness: a target call that reverts, and a target creation that fails
at execution level, both end as structured results of the run. -/
theorem target_failure_is_result_witness :
    runTx w1a true none 10 =
      Except.ok ⟨TraceResult.fromCall revRes, [4]⟩ ∧
    runTx w1b true none 11 =
      Except.ok ⟨TraceResult.fromExecutionError revRes, [4]⟩ :=
  ⟨((target_failure_is_result w1a true none 10 target0 _ _ rfl).1
      2 revRes rfl rfl rfl).trans rfl,
    ((target_failure_is_result w1b true none 11 create0 _ _ rfl).2
      revRes rfl rfl).trans rfl⟩

/-- C2: For a block whose transactions are `pre ++ target :: rest`, with the
target transaction the first occurrence of the target hash, replaying with
`quick = false` folds exactly the non-system transactions of `pre`, in their
original mined order, over the shared backend, and then executes the target
against the resulting state; neither the target nor anything after it is
replayed by the loop. -/
theorem replay_applies_prior_in_order {σ ε : Type} (w : World σ ε)
    (ver : Option EvmVersion) (txHash n : Nat) (tx : Tx) (hd : BlockHeader)
    (pre rest : List Tx)
    (htx : w.get_transaction_by_hash txHash = some tx)
    (hsys : isSystemTx w tx = false)
    (hbn : tx.block_number = some n)
    (hblk : w.get_block n =
      some ⟨hd, BlockTransactions.full (pre ++ tx :: rest)⟩)
    (hpre : ∀ p ∈ pre, p.hash ≠ txHash)
    (hhash : tx.hash = txHash) :
    runTx w false ver txHash =
      match foldPrior w (preparedEnv w n) (initialState w ver n)
          (pre.filter (fun t => !isSystemTx w t)) with
      | Except.ok s1 => executeTarget w (preparedEnv w n) s1 tx
      | Except.error e => Except.error e := by
  have hloop : replayPrior w txHash (preparedEnv w n) (initialState w ver n)
      (pre ++ tx :: rest) =
      match foldPrior w (preparedEnv w n) (initialState w ver n)
          (pre.filter (fun t => !isSystemTx w t)) with
      | Except.ok s1 => Except.ok s1
      | Except.error e => Except.error e := by
    rw [replayPrior_front w txHash (preparedEnv w n) pre (initialState w ver n)
      (tx :: rest) (fun p hp => Or.inr (hpre p hp))]
    cases foldPrior w (preparedEnv w n) (initialState w ver n)
        (pre.filter (fun t => !isSystemTx w t)) with
    | ok s1 =>
      show replayPrior w txHash (preparedEnv w n) s1 (tx :: rest) = Except.ok s1
      rw [replayPrior, if_neg (by simp [hsys]), if_pos hhash]
    | error e => rfl
  simp only [runTx, prepare, resolveTarget_ok w txHash n tx htx hsys hbn,
    hblk, hloop]
  cases foldPrior w (preparedEnv w n) (initialState w ver n)
      (pre.filter (fun t => !isSystemTx w t)) with
  | ok s1 => rfl
  | error e => rfl

/-- C2 witness: in the fixture block, the system transaction is skipped, the
prior call and creation are folded in order (two state bumps), and the
target then executes normally. -/
theorem replay_applies_prior_in_order_witness :
    runTx w0 false none 10 = Except.ok ⟨TraceResult.fromCall okRes, [3]⟩ :=
  (replay_applies_prior_in_order w0 none 10 5 target0 hd0
    [sysPrior, callPrior, createPrior] [] rfl rfl rfl rfl
    (by decide) rfl).trans rfl

/-- C3: a prior (non-target) transaction with a recipient whose replay
fails aborts the whole run with an error carrying the failing transaction's
hash and the current block number. -/
theorem prior_call_failure_aborts {σ ε : Type} (w : World σ ε)
    (ver : Option EvmVersion) (txHash n : Nat) (tx t : Tx) (a : Nat)
    (hd : BlockHeader) (pre rest : List Tx) (s1 : σ) (c : ε)
    (htx : w.get_transaction_by_hash txHash = some tx)
    (hsys : isSystemTx w tx = false)
    (hbn : tx.block_number = some n)
    (hblk : w.get_block n =
      some ⟨hd, BlockTransactions.full (pre ++ t :: rest)⟩)
    (hpre : ∀ p ∈ pre, isSystemTx w p = true ∨ p.hash ≠ txHash)
    (hfold : foldPrior w (preparedEnv w n) (initialState w ver n)
      (pre.filter (fun x => !isSystemTx w x)) = Except.ok s1)
    (ht_sys : isSystemTx w t = false)
    (ht_hash : t.hash ≠ txHash)
    (ht_to : t.to_addr = some a)
    (hfail : (w.commit_tx_with_env s1 (configure_tx_env (preparedEnv w n) t)).2 =
      Except.error c) :
    runTx w false ver txHash =
      Except.error (RunError.failedExecuteTx t.hash n c) := by
  have happ : applyPriorTx w (preparedEnv w n) s1 t =
      Except.error (RunError.failedExecuteTx t.hash n c) := by
    rcases hc : w.commit_tx_with_env s1 (configure_tx_env (preparedEnv w n) t)
      with ⟨s2, r⟩
    rw [hc] at hfail
    simp only at hfail
    subst hfail
    simp only [applyPriorTx, ht_to]
    rw [hc]
    simp [preparedEnv_block_number]
  have hloop : replayPrior w txHash (preparedEnv w n) (initialState w ver n)
      (pre ++ t :: rest) =
      Except.error (RunError.failedExecuteTx t.hash n c) := by
    rw [replayPrior_front w txHash (preparedEnv w n) pre (initialState w ver n)
      (t :: rest) hpre, hfold]
    show replayPrior w txHash (preparedEnv w n) s1 (t :: rest) = _
    rw [replayPrior, if_neg (by simp [ht_sys]), if_neg ht_hash, happ]
  simp only [runTx, prepare, resolveTarget_ok w txHash n tx htx hsys hbn,
    hblk, hloop]
  rfl

/-- C3 witness: in the fixture block, a fatally failing prior call (hash 20,
block 5, cause 42) aborts the run with exactly that context. -/
theorem prior_call_failure_aborts_witness :
    runTx w3f false none 10 =
      Except.error (RunError.failedExecuteTx 20 5 42) :=
  prior_call_failure_aborts w3f none 10 5 target0 callPrior 2 hd0
    [sysPrior] [createPrior, target0] 0 42 rfl rfl rfl rfl (by decide) rfl
    rfl (by decide) rfl rfl

/-- C4: a prior (non-target) transaction with no recipient whose replay
fails at execution level is silently tolerated (the run continues with the
remaining transactions), while any other deploy failure aborts the run with
an error carrying the failing transaction's hash and the block number. -/
theorem prior_creation_failure_classified {σ ε : Type} (w : World σ ε)
    (ver : Option EvmVersion) (txHash n : Nat) (tx t : Tx)
    (hd : BlockHeader) (pre rest : List Tx) (s1 : σ)
    (htx : w.get_transaction_by_hash txHash = some tx)
    (hsys : isSystemTx w tx = false)
    (hbn : tx.block_number = some n)
    (hblk : w.get_block n =
      some ⟨hd, BlockTransactions.full (pre ++ t :: rest)⟩)
    (hpre : ∀ p ∈ pre, isSystemTx w p = true ∨ p.hash ≠ txHash)
    (hfold : foldPrior w (preparedEnv w n) (initialState w ver n)
      (pre.filter (fun x => !isSystemTx w x)) = Except.ok s1)
    (ht_sys : isSystemTx w t = false)
    (ht_hash : t.hash ≠ txHash)
    (ht_to : t.to_addr = none) :
    (∀ res,
      (w.deploy_with_env s1 (configure_tx_env (preparedEnv w n) t)).2 =
        Except.error (EvmError.execution res) →
      runTx w false ver txHash =
        match replayPrior w txHash (preparedEnv w n)
            (w.deploy_with_env s1 (configure_tx_env (preparedEnv w n) t)).1
            rest with
        | Except.ok s2 => executeTarget w (preparedEnv w n) s2 tx
        | Except.error e => Except.error e) ∧
    (∀ c,
      (w.deploy_with_env s1 (configure_tx_env (preparedEnv w n) t)).2 =
        Except.error (EvmError.fatal c) →
      runTx w false ver txHash =
        Except.error (RunError.failedDeployTx t.hash n c)) := by
  constructor
  · intro res hdep
    rcases hc : w.deploy_with_env s1 (configure_tx_env (preparedEnv w n) t)
      with ⟨s2, r⟩
    rw [hc] at hdep
    simp only at hdep
    subst hdep
    show runTx w false ver txHash =
      match replayPrior w txHash (preparedEnv w n) s2 rest with
      | Except.ok s2 => executeTarget w (preparedEnv w n) s2 tx
      | Except.error e => Except.error e
    have happ : applyPriorTx w (preparedEnv w n) s1 t = Except.ok s2 := by
      simp only [applyPriorTx, ht_to]
      rw [hc]
    have hloop : replayPrior w txHash (preparedEnv w n) (initialState w ver n)
        (pre ++ t :: rest) = replayPrior w txHash (preparedEnv w n) s2 rest := by
      rw [replayPrior_front w txHash (preparedEnv w n) pre (initialState w ver n)
        (t :: rest) hpre, hfold]
      show replayPrior w txHash (preparedEnv w n) s1 (t :: rest) = _
      rw [replayPrior, if_neg (by simp [ht_sys]), if_neg ht_hash, happ]
    simp only [runTx, prepare, resolveTarget_ok w txHash n tx htx hsys hbn,
      hblk, hloop]
    cases replayPrior w txHash (preparedEnv w n) s2 rest with
    | ok s3 => rfl
    | error e => rfl
  · intro c hdep
    rcases hc : w.deploy_with_env s1 (configure_tx_env (preparedEnv w n) t)
      with ⟨s2, r⟩
    rw [hc] at hdep
    simp only at hdep
    subst hdep
    have happ : applyPriorTx w (preparedEnv w n) s1 t =
        Except.error (RunError.failedDeployTx t.hash n c) := by
      simp only [applyPriorTx, ht_to]
      rw [hc]
      simp [preparedEnv_block_number]
    have hloop : replayPrior w txHash (preparedEnv w n) (initialState w ver n)
        (pre ++ t :: rest) =
        Except.error (RunError.failedDeployTx t.hash n c) := by
      rw [replayPrior_front w txHash (preparedEnv w n) pre (initialState w ver n)
        (t :: rest) hpre, hfold]
      show replayPrior w txHash (preparedEnv w n) s1 (t :: rest) = _
      rw [replayPrior, if_neg (by simp [ht_sys]), if_neg ht_hash, happ]
    simp only [runTx, prepare, resolveTarget_ok w txHash n tx htx hsys hbn,
      hblk, hloop]
    rfl

/-- C4 witness: a reverting prior creation is tolerated and the target still
produces its normal result, while a fatally failing prior creation (hash 21,
block 5, cause 13) aborts the run with exactly that context. -/
theorem prior_creation_failure_classified_witness :
    runTx w4a false none 10 = Except.ok ⟨TraceResult.fromCall okRes, [3]⟩ ∧
    runTx w4b false none 10 =
      Except.error (RunError.failedDeployTx 21 5 13) :=
  ⟨((prior_creation_failure_classified w4a none 10 5 target0 createPrior hd0
      [sysPrior, callPrior] [target0] 1 rfl rfl rfl rfl (by decide) rfl rfl
      (by decide) rfl).1 revRes rfl).trans rfl,
    (prior_creation_failure_classified w4b none 10 5 target0 createPrior hd0
      [sysPrior, callPrior] [target0] 1 rfl rfl rfl rfl (by decide) rfl rfl
      (by decide) rfl).2 13 rfl⟩

/-- C5: a system transaction reached by the replay loop is skipped without
being executed and with the backend state unchanged, and a block with system
transactions before the target yields the same target result as the same
block with those transactions removed. -/
theorem system_txs_skipped {σ ε : Type} (w : World σ ε) (quick : Bool)
    (ver : Option EvmVersion) (txHash n : Nat) (tx t : Tx) (hd : BlockHeader)
    (txs rest : List Tx) (env : Env) (s : σ) :
    (isSystemTx w t = true →
      replayPrior w txHash env s (t :: rest) =
        replayPrior w txHash env s rest) ∧
    (w.get_transaction_by_hash txHash = some tx →
      isSystemTx w tx = false →
      tx.block_number = some n →
      w.get_block n = some ⟨hd, BlockTransactions.full txs⟩ →
      runTx (filteredWorld w n hd txs) quick ver txHash =
        runTx w quick ver txHash) := by
  constructor
  · intro hs
    rw [replayPrior, if_pos hs]
  · intro htx hsys hbn hblk
    unfold filteredWorld
    generalize hG : (fun m => if m = n then
        some (⟨hd, BlockTransactions.full
          (txs.filter (fun x => !isSystemTx w x))⟩ : Block)
        else w.get_block m) = g
    have hgn : g n = some ⟨hd, BlockTransactions.full
        (txs.filter (fun x => !isSystemTx w x))⟩ := by
      rw [← hG]
      simp
    have hgn2 : ({ w with get_block := g } : World σ ε).get_block n =
        some ⟨hd, BlockTransactions.full
          (txs.filter (fun x => !isSystemTx w x))⟩ := hgn
    have hres2 : resolveTarget { w with get_block := g } txHash =
        Except.ok (tx, n) :=
      resolveTarget_ok _ txHash n tx htx hsys hbn
    have hpbe : preparedBlockEnv { w with get_block := g } n =
        preparedBlockEnv w n := by
      unfold preparedBlockEnv
      rw [hgn2, hblk]
      rfl
    have hinit : initialState { w with get_block := g } ver n =
        initialState w ver n := by
      unfold initialState
      rw [hpbe, hgn2, hblk]
      rfl
    have henv : preparedEnv { w with get_block := g } n = preparedEnv w n := by
      unfold preparedEnv
      rw [hpbe]
    cases quick
    · simp only [runTx, prepare, hres2,
        resolveTarget_ok w txHash n tx htx hsys hbn, hgn, hgn2, hblk, henv,
        hinit, Bool.false_eq_true, if_false]
      rw [replayPrior_get_block_congr w g txHash (preparedEnv w n),
        replayPrior_filter_system w txHash (preparedEnv w n)]
      cases replayPrior w txHash (preparedEnv w n) (initialState w ver n) txs with
      | ok s1 => rfl
      | error e => rfl
    · simp only [runTx, prepare, hres2,
        resolveTarget_ok w txHash n tx htx hsys hbn, henv, hinit]
      rfl

/-- C5 witness: skipping the fixture's system transaction head, and the run
on the fixture block with its system transactions removed agreeing with the
run on the original block. -/
theorem system_txs_skipped_witness :
    replayPrior w0 10 (preparedEnv w0 5) 0 [sysPrior, callPrior] =
      replayPrior w0 10 (preparedEnv w0 5) 0 [callPrior] ∧
    runTx (filteredWorld w0 5 hd0 [sysPrior, callPrior, createPrior, target0])
        false none 10 =
      runTx w0 false none 10 :=
  ⟨(system_txs_skipped w0 false none 10 5 target0 sysPrior hd0 []
      [callPrior] (preparedEnv w0 5) 0).1 rfl,
    (system_txs_skipped w0 false none 10 5 target0 sysPrior hd0
      [sysPrior, callPrior, createPrior, target0] [] (preparedEnv w0 5) 0).2
      rfl rfl rfl rfl⟩

/-- C6: with `quick = true` the run is exactly the target execution against
the freshly forked initial backend state, regardless of the block's
contents: no other transaction is executed. -/
theorem quick_mode_executes_only_target {σ ε : Type} (w : World σ ε)
    (ver : Option EvmVersion) (txHash n : Nat) (tx : Tx)
    (htx : w.get_transaction_by_hash txHash = some tx)
    (hsys : isSystemTx w tx = false)
    (hbn : tx.block_number = some n) :
    runTx w true ver txHash =
      executeTarget w (preparedEnv w n) (initialState w ver n) tx := by
  simp only [runTx, prepare, resolveTarget_ok w txHash n tx htx hsys hbn]
  rfl

/-- C6 witness: quick replay of the fixture target, whose block does contain
prior transactions, still runs the target against the initial state. -/
theorem quick_mode_executes_only_target_witness :
    runTx w0 true none 10 = Except.ok ⟨TraceResult.fromCall okRes, [3]⟩ :=
  (quick_mode_executes_only_target w0 none 10 5 target0 rfl rfl rfl).trans rfl

/-- C7: target resolution fails with a not-found error when the provider
cannot locate the hash, with a system-transaction error when the sender is a
known system sender or the type tag equals the reserved system type, with a
pending error when no block number is attached, and otherwise yields the
transaction record and its containing block number. -/
theorem target_resolution_contract {σ ε : Type} (w : World σ ε)
    (txHash : Nat) :
    (w.get_transaction_by_hash txHash = none →
      ∀ quick ver, runTx w quick ver txHash =
        Except.error (RunError.txNotFound txHash)) ∧
    (∀ tx, w.get_transaction_by_hash txHash = some tx →
      (w.is_known_system_sender tx.sender = true ∨
        tx.transaction_type = some SYSTEM_TRANSACTION_TYPE) →
      ∀ quick ver, runTx w quick ver txHash =
        Except.error (RunError.systemTransaction tx.hash)) ∧
    (∀ tx, w.get_transaction_by_hash txHash = some tx →
      w.is_known_system_sender tx.sender = false →
      tx.transaction_type ≠ some SYSTEM_TRANSACTION_TYPE →
      tx.block_number = none →
      ∀ quick ver, runTx w quick ver txHash =
        Except.error (RunError.pendingTx txHash)) ∧
    (∀ tx n, w.get_transaction_by_hash txHash = some tx →
      w.is_known_system_sender tx.sender = false →
      tx.transaction_type ≠ some SYSTEM_TRANSACTION_TYPE →
      tx.block_number = some n →
      resolveTarget w txHash = Except.ok (tx, n)) := by
  refine ⟨?_, ?_, ?_, ?_⟩
  · intro hnone quick ver
    simp [runTx, prepare, resolveTarget, hnone]
  · intro tx htx hdisj quick ver
    have hsys : isSystemTx w tx = true := (isSystemTx_eq_true_iff w tx).2 hdisj
    simp [runTx, prepare, resolveTarget, htx, hsys]
  · intro tx htx hsender htype hbn quick ver
    have hsys : isSystemTx w tx = false := by
      simp [isSystemTx, hsender, htype]
    simp [runTx, prepare, resolveTarget, htx, hsys, hbn]
  · intro tx n htx hsender htype hbn
    have hsys : isSystemTx w tx = false := by
      simp [isSystemTx, hsender, htype]
    exact resolveTarget_ok w txHash n tx htx hsys hbn

/-- C7 witness: the four resolver outcomes on the fixture provider — an
unknown hash, a system-typed target, a pending target and the normal
target. -/
theorem target_resolution_contract_witness :
    runTx w0 true none 99 = Except.error (RunError.txNotFound 99) ∧
    runTx w0 true none 12 = Except.error (RunError.systemTransaction 12) ∧
    runTx w0 true none 13 = Except.error (RunError.pendingTx 13) ∧
    resolveTarget w0 10 = Except.ok (target0, 5) :=
  ⟨(target_resolution_contract w0 99).1 rfl true none,
    (target_resolution_contract w0 12).2.1 sysTarget0 rfl (Or.inr rfl)
      true none,
    (target_resolution_contract w0 13).2.2.1 pending0 rfl rfl (by decide)
      rfl true none,
    (target_resolution_contract w0 10).2.2.2 target0 5 rfl rfl (by decide)
      rfl⟩

/-- C8: for every resolved target block number `n` (at least 1, within
64-bit range), the fork point is the parent block number `n - 1`, while the
built execution environment's block number is `n`. -/
theorem fork_point_is_parent {σ ε : Type} (n : Nat) (hn1 : 1 ≤ n)
    (hn2 : n < U64_MOD) :
    fork_block_number n = n - 1 ∧
      (∀ (base : BlockEnv) (block : Option Block),
        (buildBlockEnv base n block).number = n) ∧
      ∀ (w : World σ ε), preparedBlockEnv w n =
        buildBlockEnv (w.get_fork_material (n - 1)) n (w.get_block n) := by
  have h64 : U64_MOD = 18446744073709551616 := by norm_num [U64_MOD]
  have hfork : fork_block_number n = n - 1 := by
    rw [fork_block_number, h64]
    rw [h64] at hn2
    omega
  refine ⟨hfork, ?_, ?_⟩
  · intro base block
    unfold buildBlockEnv
    cases block <;> rfl
  · intro w
    unfold preparedBlockEnv
    rw [hfork]

/-- C8 witness: the fixture target block 5 forks at block 4 with the
environment's block number equal to 5. -/
theorem fork_point_is_parent_witness :
    fork_block_number 5 = 4 ∧ (buildBlockEnv base0 5 none).number = 5 ∧
      preparedBlockEnv w0 5 =
        buildBlockEnv (w0.get_fork_material 4) 5 (w0.get_block 5) :=
  ⟨(@fork_point_is_parent Nat Nat 5 (by decide) (by decide)).1,
    (@fork_point_is_parent Nat Nat 5 (by decide) (by decide)).2.1 base0 none,
    (@fork_point_is_parent Nat Nat 5 (by decide) (by decide)).2.2 w0⟩

/-- C9: when the provider returns no block data, the run does not fail: the
prepared environment keeps the fork-derived header fields (only the block
number is updated), the replay phase is skipped even with `quick = false`,
and the run coincides with the quick-mode run. -/
theorem absent_block_data_tolerated {σ ε : Type} (w : World σ ε)
    (ver : Option EvmVersion) (txHash n : Nat) (tx : Tx)
    (htx : w.get_transaction_by_hash txHash = some tx)
    (hsys : isSystemTx w tx = false)
    (hbn : tx.block_number = some n)
    (hblk : w.get_block n = none) :
    (∀ quick, prepare w quick ver txHash =
      Except.ok (tx,
        ⟨{ w.get_fork_material (fork_block_number n) with number := n }, none⟩,
        w.init_executor
          { w.get_fork_material (fork_block_number n) with number := n }
          (fork_block_number n) ver)) ∧
    runTx w false ver txHash = runTx w true ver txHash := by
  have hpbe : preparedBlockEnv w n =
      { w.get_fork_material (fork_block_number n) with number := n } := by
    unfold preparedBlockEnv buildBlockEnv
    rw [hblk]
  have hprep : ∀ quick, prepare w quick ver txHash =
      Except.ok (tx,
        ⟨{ w.get_fork_material (fork_block_number n) with number := n }, none⟩,
        w.init_executor
          { w.get_fork_material (fork_block_number n) with number := n }
          (fork_block_number n) ver) := by
    intro quick
    cases quick
    · simp [prepare, resolveTarget_ok w txHash n tx htx hsys hbn, hblk,
        preparedEnv, initialState, hpbe, inferEvmVersion]
    · simp [prepare, resolveTarget_ok w txHash n tx htx hsys hbn, hblk,
        preparedEnv, initialState, hpbe, inferEvmVersion]
  refine ⟨hprep, ?_⟩
  simp only [runTx, hprep false, hprep true]

/-- C9 witness: the fixture target in block 7, for which no block data
exists, still prepares successfully with fork-derived header fields, and its
full replay equals its quick replay. -/
theorem absent_block_data_tolerated_witness :
    prepare w0 false none 14 =
      Except.ok (orphan0, ⟨{ base0 with number := 7 }, none⟩, 0) ∧
    runTx w0 false none 14 = runTx w0 true none 14 :=
  ⟨((absent_block_data_tolerated w0 none 14 7 orphan0 rfl rfl rfl rfl).1
      false).trans rfl,
    (absent_block_data_tolerated w0 none 14 7 orphan0 rfl rfl rfl rfl).2⟩

/-- C10: the parent-block computation subtracts 1 with no positivity guard:
for every 64-bit block number at least 1 it is an ordinary decrement, while
for block number 0 it wraps around to `2 ^ 64 - 1`. -/
theorem parent_block_number_wraps :
    (∀ n, 1 ≤ n → n < U64_MOD → fork_block_number n = n - 1) ∧
    fork_block_number 0 = U64_MOD - 1 := by
  constructor
  · intro n h1 h2
    have h64 : U64_MOD = 18446744073709551616 := by norm_num [U64_MOD]
    rw [fork_block_number, h64]
    rw [h64] at h2
    omega
  · rfl

/-- C10 witness: the in-range decrement at block number 3. -/
theorem parent_block_number_wraps_witness : fork_block_number 3 = 2 :=
  parent_block_number_wraps.1 3 (by decide) (by decide)

end CastRun
